import Mathlib

/-!
Verification development for the pr-agent repository: a linear automation
pipeline that clones a repository, runs its tests, applies a single text
patch, re-runs the tests, and publishes a branch and pull request only when
the post-patch tests pass.

The definitions below are a shallow embedding of the JavaScript sources:
`executor.js` (file operations and fragment replacement), `verifier.js`
(test discovery and execution), `planner.js` (deterministic fallback patch
and validation of externally generated patches), `publisher.js` (pull
request payload construction) and `agent.js` (the orchestrator
`executeWithPatch` with its verification safety gate).

Strings are modelled as `List Char`; the filesystem is an association list
from absolute path to file content; external effects (test process
execution, the git commands, the hosting API) are modelled by explicit
oracle parameters, and the set of git/pull-request operations a code path
invokes is returned as an explicit trace so that "no commit, no push, no
pull-request call" is a statement about the program text.
-/

namespace PrAgent

/-- Content of a text file, as a list of characters. -/
abbrev Chars := List Char

/-- Shorthand: the character list of a string literal. -/
def lc (s : String) : Chars := s.data

/-- Model of JavaScript `String.prototype.indexOf(pat)` on character lists:
the index of the first occurrence of `pat`, or `none` when `pat` does not
occur (`=== -1` in the source).  As in JS, the empty pattern occurs at 0. -/
def indexOfSub (pat : Chars) : Chars → Option Nat
  | [] => if pat = [] then some 0 else none
  | c :: t => if pat.isPrefixOf (c :: t) then some 0 else (indexOfSub pat t).map (· + 1)

/-- JavaScript `GetSubstitution` for a string (non-regex) search with no
capture groups, as performed by `String.prototype.replace(string, string)`:
in the replacement text, `$$` yields `$`, `$&` yields the matched fragment,
``$` `` yields the text before the match, `$'` yields the text after the
match, and any other `$` (including a trailing one) is literal. -/
def getSubstitution (matched before after : Chars) : Chars → Chars
  | [] => []
  | [c] => [c]
  | c :: d :: rest =>
    if c = '$' then
      if d = '$' then '$' :: getSubstitution matched before after rest
      else if d = '&' then matched ++ getSubstitution matched before after rest
      else if d = Char.ofNat 96 then before ++ getSubstitution matched before after rest
      else if d = Char.ofNat 39 then after ++ getSubstitution matched before after rest
      else '$' :: getSubstitution matched before after (d :: rest)
    else c :: getSubstitution matched before after (d :: rest)

/-- JavaScript `content.replace(pat, repl)` with string arguments: replace
the first occurrence of `pat` (if any) by the substitution expansion of
`repl`; later occurrences are untouched. -/
def jsReplace (s pat repl : Chars) : Chars :=
  match indexOfSub pat s with
  | none => s
  | some i =>
      s.take i ++ getSubstitution pat (s.take i) (s.drop (i + pat.length)) repl
        ++ s.drop (i + pat.length)

/-- The filesystem: association list from absolute path to file content.
Lookup returns the most recently written entry. -/
abbrev FS := List (String × Chars)

/-- `executor.js` `readFile` (lines 12-18): returns the file content, or
throws `Failed to read file <path>: ...` when the underlying read fails
(modelled: the path is absent from the filesystem). -/
def readFile (fs : FS) (filePath : String) : Except String Chars :=
  match fs.lookup filePath with
  | some c => .ok c
  | none => .error ("Failed to read file " ++ filePath)

/-- `executor.js` `writeFile` (lines 23-29): writes the content at the path
(the new entry shadows any previous one). -/
def writeFile (fs : FS) (filePath : String) (content : Chars) : FS :=
  (filePath, content) :: fs

/-- `executor.js` `fileExists` (lines 34-40). -/
def fileExists (fs : FS) (filePath : String) : Bool :=
  (fs.lookup filePath).isSome

deriving instance DecidableEq for Except

/-- Result of `applyChanges`: the thrown-or-returned value, together with
the filesystem state after the call (unchanged when an error is thrown,
since the only write happens after both checks pass). -/
structure ApplyOutcome where
  result : Except String Bool
  fs : FS
deriving Repr, DecidableEq

/-- `executor.js` `applyChanges` (lines 74-85): read the file (the read may
throw), throw `Old code not found in file: <path>` when `oldCode` does not
occur in the content, and otherwise write back
`content.replace(oldCode, newCode)` and return `true`. -/
def applyChanges (fs : FS) (filePath : String) (oldCode newCode : Chars) : ApplyOutcome :=
  match readFile fs filePath with
  | .error e => ⟨.error e, fs⟩
  | .ok content =>
    if indexOfSub oldCode content = none then
      ⟨.error ("Old code not found in file: " ++ filePath), fs⟩
    else
      ⟨.ok true, writeFile fs filePath (jsReplace content oldCode newCode)⟩

/-- A JSON value as produced by `JSON.parse`, extended with `undefined` for the
value of an absent property (JavaScript `undefined`), so that member access
on a parsed object can be modelled totally.  Numbers are modelled as
integers: in this development a number only ever matters through its
truthiness. -/
inductive JValue where
  | undefined
  | null
  | bool (b : Bool)
  | num (n : Int)
  | str (s : Chars)
  | arr (xs : List JValue)
  | obj (fields : List (String × JValue))

/-- JavaScript property access `j[k]` on a parsed JSON value: the field of
an object, `undefined` otherwise (access on `null`/`undefined` throws in
JS; in every use below such a throw is caught and turned into the same
no-command / no-patch outcome that `undefined` produces here). -/
def getField : JValue → String → JValue
  | .obj fields, k =>
      match fields.lookup k with
      | some v => v
      | none => .undefined
  | _, _ => .undefined

/-- JavaScript truthiness of a parsed JSON value. -/
def truthy : JValue → Bool
  | .undefined => false
  | .null => false
  | .bool b => b
  | .num n => n ≠ 0
  | .str s => s ≠ []
  | .arr _ => true
  | .obj _ => true

/-- The state of the repository manifest `package.json` as seen by
`detectTestCommand`: the file is absent, it exists but cannot be read or
parsed (`JSON.parse` throws, caught by the source), or it parses to a JSON
value. -/
inductive ManifestFile where
  | absent
  | unreadable
  | parsed (j : JValue)

/-- `verifier.js` `TestResult`: the record returned by `runTests`. -/
structure TestResult where
  success : Bool
  output : String
  command : Option String
deriving Repr, DecidableEq

/-- The outcome of the spawned test process, as observed by `execSync`:
exit code together with the captured standard output and standard error
text. -/
structure ProcResult where
  exitCode : Nat
  stdout : String
  stderr : String
deriving Repr, DecidableEq

/-- `verifier.js` `detectTestCommand` (planner.js lines 533-552): `null`
when `package.json` is absent or unreadable; `'npm test'` exactly when the
parsed manifest satisfies `packageJson.scripts && packageJson.scripts.test`
(JS truthiness); `null` otherwise.  The declared test script's text is
never consulted for the command string. -/
def detectTestCommand : ManifestFile → Option String
  | .absent => none
  | .unreadable => none
  | .parsed j =>
      if truthy (getField j "scripts") && truthy (getField (getField j "scripts") "test") then
        some "npm test"
      else none

/-- `verifier.js` `runTests` (planner.js lines 557-588): short-circuits to
`{success: false, output: "No test command found", command: null}` when no
test command is detected; otherwise invokes the command via `execSync`
(modelled by the `proc` oracle), classifying exit code zero as success and
folding a non-zero exit (which makes `execSync` throw, caught by the
source) into `success: false` with output `error.stdout + '\n' +
error.stderr`.  The second component is the list of commands spawned. -/
def runTests (m : ManifestFile) (proc : ProcResult) : TestResult × List String :=
  match detectTestCommand m with
  | none => (⟨false, "No test command found", none⟩, [])
  | some cmd =>
      if proc.exitCode = 0 then
        (⟨true, proc.stdout, some cmd⟩, [cmd])
      else
        (⟨false, proc.stdout ++ "\n" ++ proc.stderr, some cmd⟩, [cmd])

/-- A patch as produced by the planner and consumed by `applyChanges` and
the publisher: target file (absolute path), fragment to replace, fragment
replacing it, human-readable summary. -/
structure Patch where
  file : String
  oldCode : Chars
  newCode : Chars
  summary : String
deriving Repr, DecidableEq

/-- The `oldCode` literal of the deterministic fallback patch
(planner.js lines 274-291). -/
def fallbackOldCode : String :=
  "function addDays(date, days) \x7b\n  const result = new Date(date);\n  // BUG: This is intentionally wrong - should add days, not set them\n  result.setDate(days);\n  return result;\n\x7d\n\n/**\n * Formats a date as YYYY-MM-DD\n * @param \x7bDate\x7d date - The date to format\n * @returns \x7bstring\x7d Formatted date string\n */\nfunction formatDate(date) \x7b\n  const year = date.getFullYear();\n  const month = String(date.getMonth() + 1).padStart(2, \x27\x30\x27);\n  const day = String(date.getDate()).padStart(2, \x27\x30\x27);\n  return \x60$\x7byear\x7d-$\x7bmonth\x7d-$\x7bday\x7d\x60;\n\x7d"

/-- The `newCode` literal of the deterministic fallback patch
(planner.js lines 293-310). -/
def fallbackNewCode : String :=
  "function addDays(date, days) \x7b\n  const result = new Date(date);\n  result.setDate(result.getDate() + days);\n  return result;\n\x7d\n\n/**\n * Formats a date as YYYY-MM-DD\n * @param \x7bDate\x7d date - The date to format\n * @returns \x7bstring\x7d Formatted date string\n */\nfunction formatDate(date) \x7b\n  const year = date.getUTCFullYear();\n  const month = String(date.getUTCMonth() + 1).padStart(2, \x27\x30\x27);\n  const day = String(date.getUTCDate()).padStart(2, \x27\x30\x27);\n  return \x60$\x7byear\x7d-$\x7bmonth\x7d-$\x7bday\x7d\x60;\n\x7d"

/-- `planner.js` `getFallbackPatch` (lines 266-321): when the goal text
contains the marker `utils/date.js`, read `<repoPath>/utils/date.js`
(`executor.readFile`, which throws when the file cannot be read) and return
the hard-coded two-bug patch; otherwise return `null`.  The thrown read
error is modelled by the `.error` case. -/
def getFallbackPatch (fs : FS) (repoPath goal : String) : Except String (Option Patch) :=
  if (indexOfSub (lc "utils/date.js") (lc goal)).isSome then
    let targetFile := repoPath ++ "/utils/date.js"
    match readFile fs targetFile with
    | .error e => .error e
    | .ok _ =>
        .ok (some ⟨targetFile, lc fallbackOldCode, lc fallbackNewCode,
          "Fixed addDays to add days correctly and formatDate to use UTC getters"⟩)
  else
    .ok none

/-- POSIX `path.isAbsolute`: the path starts with `/`. -/
def isAbsolutePath : Chars → Bool
  | [] => false
  | c :: _ => c = '/'

/-- `path.join(repoPath, relative)` for an already-normal relative segment
(the join performed by getLLMPatch on a validated relative path). -/
def joinPath (a b : String) : String := a ++ "/" ++ b

/-- The validation tail of `planner.js` `getLLMPatch` (lines 412-498),
starting from the patch object extracted and parsed out of the LLM
response text.  `patchJson = none` models every earlier rejection in which
no parsed JSON object is available: a non-200 status, a response body that
`JSON.parse` cannot parse, a response without the expected content
structure, response text containing no `{...}` block, or an inner
`JSON.parse` throw — each of which the source resolves to `null`.
Field checks mirror `!x || typeof x !== 'string'` (so a missing, non-string
or empty-string field is rejected; for `oldCode`/`newCode` the source's
redundant `length === 0` check is subsumed), then `path.isAbsolute`,
`executor.fileExists` on `path.join(repoPath, file)`, and a verbatim
`indexOf` containment check of `oldCode` in the target file's current
content.  Any failure yields `none`; the source never throws here (the
whole handler is inside `try`/`catch` resolving `null`). -/
def validateLLMPatch (patchJson : Option JValue) (fs : FS) (repoPath : String) : Option Patch :=
  match patchJson with
  | none => none
  | some p =>
    match getField p "summary", getField p "file",
          getField p "oldCode", getField p "newCode" with
    | .str summary, .str file, .str oldCode, .str newCode =>
      if summary = [] then none
      else if file = [] then none
      else if oldCode = [] then none
      else if newCode = [] then none
      else if isAbsolutePath file then none
      else if ¬ fileExists fs (joinPath repoPath (String.mk file)) then none
      else
        match readFile fs (joinPath repoPath (String.mk file)) with
        | .error _ => none
        | .ok content =>
          if indexOfSub oldCode content = none then none
          else some ⟨joinPath repoPath (String.mk file), oldCode, newCode, String.mk summary⟩
    | _, _, _, _ => none

/-- `publisher.js` `getRepoInfo`: owner and repository name parsed from the
configured remote URL (taken as an oracle by the orchestrator model). -/
structure RepoInfo where
  owner : String
  repo : String
deriving Repr, DecidableEq

/-- The pull-request payload built by `publisher.js`
`createPullRequestActual` (lines 109-119): the data needed for
pull-request creation, with base branch fixed to `main`. -/
structure PrData where
  owner : String
  repo : String
  head : String
  base : String
  title : String
  body : String
deriving Repr, DecidableEq

/-- `publisher.js` `createPullRequestActual` (lines 109-119): returns the
pull-request payload alone (no API call is performed by this version). -/
def createPullRequestActual (info : RepoInfo) (branchName title body : String) : PrData :=
  ⟨info.owner, info.repo, branchName, "main", title, body⟩

/-- `path.basename`: the final path segment. -/
def basename (s : String) : String :=
  String.mk ((s.data.reverse.takeWhile (fun c => c ≠ '/')).reverse)

/-- `agent.js` `createPRBody` (part_003 lines 188-197): the fixed Markdown
template with Summary, Changes and before/after Test Results sections. -/
def createPRBody (patch : Patch) (baselineResult verifyResult : TestResult) : String :=
  "## Summary\n\n" ++ patch.summary ++ "\n\n" ++
  "## Changes\n\n" ++
  "- File: \x60" ++ basename patch.file ++ "\x60\n\n" ++
  "## Test Results\n\n" ++
  "### Before\n\x60\x60\x60\n" ++ baselineResult.output ++ "\n\x60\x60\x60\n\n" ++
  "### After\n\x60\x60\x60\n" ++ verifyResult.output ++ "\n\x60\x60\x60\n"

/-- The remote-mutating operations the orchestrator can invoke, in the
order `executeWithPatch` invokes them: branch creation, commit, push, and
the pull-request-creation call. -/
inductive GitOp where
  | createBranch
  | commitChanges
  | pushBranch
  | createPR
deriving Repr, DecidableEq

/-- The terminal result value built by `agent.js` `executeWithPatch`. -/
inductive AgentResult where
  | success (prData : PrData) (branchName : String) (repoInfo : RepoInfo)
  | verifyFailed (output : String)
deriving Repr, DecidableEq

/-- The observable outcome of one `executeWithPatch` call: the returned (or
thrown) value, the trace of remote-mutating git/PR operations invoked, and
whether the per-run workspace directory was deleted (`rm -rf workDir`). -/
structure ExecOutcome where
  result : Except String AgentResult
  gitOps : List GitOp
  workDirRemoved : Bool
deriving Repr, DecidableEq

/-- `agent.js` `executeWithPatch` (part_003 lines 86-156), the orchestrator
core: apply the patch (`executor.applyChanges`; a thrown apply error
propagates with no cleanup and no git operation), re-run the tests
(`verifier.runTests` on the patched repository, whose manifest state and
process outcome are the `verifyManifest`/`verifyProc` oracles), and then
either — when verification failed — delete the workspace (when
`workDirExists`, modelling `fs.existsSync(workDir)`) and return
`verify_failed` with the failing output and no git operation invoked, or —
when verification succeeded — create the branch `fix/<timestamp>`
(`branchTs` models `getTimestamp()`), commit, push, build the PR body and
payload, delete the workspace and return `success`.  The success branch
models the run in which the git commands themselves succeed;
`repoInfo` is the oracle for `publisher.getRepoInfo`. -/
def executeWithPatch (fs : FS) (patch : Patch) (verifyManifest : ManifestFile)
    (verifyProc : ProcResult) (workDirExists : Bool) (branchTs : String)
    (repoInfo : RepoInfo) (baselineResult : TestResult) : ExecOutcome :=
  match (applyChanges fs patch.file patch.oldCode patch.newCode).result with
  | .error e => ⟨.error e, [], false⟩
  | .ok _ =>
    let verifyResult := (runTests verifyManifest verifyProc).1
    if verifyResult.success = false then
      ⟨.ok (.verifyFailed verifyResult.output), [], workDirExists⟩
    else
      let branchName := "fix/" ++ branchTs
      let prBody := createPRBody patch baselineResult verifyResult
      let prData := createPullRequestActual repoInfo branchName
        ("Fix: " ++ patch.summary) prBody
      ⟨.ok (.success prData branchName repoInfo),
        [.createBranch, .commitChanges, .pushBranch, .createPR], workDirExists⟩

/-- Outcome of the hosting API's create-pull-request call, as observed by
the caller: a created resource with URL and number, or any failure
(non-2xx response, transport error, timeout). -/
inductive ApiOutcome where
  | created (url : String) (number : Nat)
  | failed (reason : String)
deriving Repr, DecidableEq

/-- The record returned by the graceful pull-request opener. -/
structure PrResult where
  payload : PrData
  url : Option String
  number : Option Nat
  createdViaApi : Bool
deriving Repr, DecidableEq

/-- Modelled from the spec: the graceful `openPullRequest` of §4.5, whose
implementation is missing from `src/` — the sources contain only two
earlier snapshots of `publisher.js` `createPullRequestActual` (one returns
the payload without any API call, one throws when `GITHUB_TOKEN` is
absent), while `src` `cli.js` already consumes the final shape
(`result.createdViaAPI`, `result.prUrl`, `result.prNumber`).  Per the
spec: if a credential is configured, issue the API call and on a created
status return URL and number with `createdViaApi: true`; on any failure —
missing credential, non-2xx response, transport error, timeout — never
throw, and fall back to returning the payload alone with
`createdViaApi: false`. -/
def openPullRequest (token : Option String) (api : ApiOutcome) (payload : PrData) : PrResult :=
  match token with
  | none => ⟨payload, none, none, false⟩
  | some _ =>
    match api with
    | .created url number => ⟨payload, some url, some number, true⟩
    | .failed _ => ⟨payload, none, none, false⟩

/-! ### Helper lemmas about `indexOfSub` and `getSubstitution` -/

lemma indexOfSub_of_prefix (old s : Chars) (h : old <+: s) : indexOfSub old s = some 0 := by
cases s with
| nil =>
    have hnil : old = [] := List.prefix_nil.mp h
    simp [indexOfSub, hnil]
| cons c t =>
    have hb : old.isPrefixOf (c :: t) = true := List.isPrefixOf_iff_prefix.mpr h
    simp [indexOfSub, hb]

lemma indexOfSub_first (old b a : Chars)
    (hmin : ∀ j, j < b.length → ¬ old <+: (b ++ old ++ a).drop j) :
    indexOfSub old (b ++ old ++ a) = some b.length := by
induction b with
| nil =>
    simpa using indexOfSub_of_prefix old (old ++ a) (List.prefix_append old a)
| cons c b' ih =>
    have hassoc : (c :: b') ++ old ++ a = c :: (b' ++ old ++ a) := by simp
    have hnp : ¬ old <+: (c :: (b' ++ old ++ a)) := by
      have h0 := hmin 0 (by simp)
      rw [hassoc] at h0
      simpa using h0
    have hb : old.isPrefixOf (c :: (b' ++ old ++ a)) = false := by
      rw [Bool.eq_false_iff]
      intro hc
      exact hnp (List.isPrefixOf_iff_prefix.mp hc)
    have hmin' : ∀ j, j < b'.length → ¬ old <+: (b' ++ old ++ a).drop j := by
      intro j hj
      have := hmin (j + 1) (by simpa using Nat.succ_lt_succ hj)
      rw [hassoc] at this
      simpa using this
    rw [hassoc]
    simp only [indexOfSub, hb, if_false, ih hmin', Option.map_some]
    simp

lemma getSubstitution_no_dollar (matched before after repl : Chars)
    (h : '$' ∉ repl) : getSubstitution matched before after repl = repl := by
induction repl with
| nil => rfl
| cons c rest ih =>
    have hc : c ≠ '$' := fun hh => h (hh ▸ List.mem_cons_self c rest)
    cases rest with
    | nil => rfl
    | cons d rest2 =>
        simp only [getSubstitution, if_neg hc]
        congr 1
        exact ih (fun hm => h (List.mem_cons_of_mem _ hm))

/-! ### C3 and C4: fragment replacement -/

/-- C3 counterexample: in the file content `abab` the fragment `ab` occurs
twice; applying a patch with `newFragment` `$$x` produces `$xab` — the
first occurrence is *not* replaced by the verbatim `newFragment` (which
would give `$$xab`), because `String.prototype.replace` expands `$`
substitution patterns in the replacement string. -/
theorem applyChanges_not_verbatim_newFragment :
    (applyChanges [("f.txt", lc "abab")] "f.txt" (lc "ab") (lc "$$x")).result = .ok true ∧
    indexOfSub (lc "ab") (lc "abab") = some 0 ∧
    indexOfSub (lc "ab") ((lc "abab").drop 2) = some 0 ∧
    ((applyChanges [("f.txt", lc "abab")] "f.txt" (lc "ab") (lc "$$x")).fs.lookup "f.txt")
      = some (lc "$xab") ∧
    lc "$xab" ≠ lc "" ++ lc "$$x" ++ lc "ab" := by decide

/-- C3 (amended): for a file whose content contains `oldFragment` at least
twice, `applyChanges` succeeds and rewrites the file to
`before ++ expansion ++ after`, where `before`/`after` surround the first
(earliest) occurrence of `oldFragment` and `expansion` is the JavaScript
substitution expansion of `newFragment`; every later occurrence (inside
`after`) and all other text are unchanged, and whenever `newFragment`
contains no `$` character the expansion is `newFragment` itself, i.e. the
claim as originally stated. -/
theorem applyChanges_first_occurrence (fs : FS) (p : String) (old new b a : Chars)
    (hfs : fs.lookup p = some (b ++ old ++ a))
    (hfirst : ∀ j, j < b.length → ¬ old <+: (b ++ old ++ a).drop j)
    (hagain : (indexOfSub old a).isSome = true) :
    (applyChanges fs p old new).result = .ok true ∧
    ((applyChanges fs p old new).fs.lookup p)
      = some (b ++ getSubstitution old b a new ++ a) ∧
    ('$' ∉ new →
      ((applyChanges fs p old new).fs.lookup p) = some (b ++ new ++ a)) := by
have hidx : indexOfSub old (b ++ old ++ a) = some b.length := indexOfSub_first old b a hfirst
have htake : (b ++ old ++ a).take b.length = b := by
  rw [List.append_assoc]
  exact List.take_left b (old ++ a)
have hdrop : (b ++ old ++ a).drop (b.length + old.length) = a := by
  have : b.length + old.length = (b ++ old).length := (List.length_append b old).symm
  rw [this]
  exact List.drop_left (b ++ old) a
have happly : applyChanges fs p old new
    = ⟨.ok true, writeFile fs p (b ++ getSubstitution old b a new ++ a)⟩ := by
  unfold applyChanges readFile
  rw [hfs]
  simp only [hidx, jsReplace, htake, hdrop]
  simp
refine ⟨by rw [happly], ?_, ?_⟩
· rw [happly]
  simp [writeFile, List.lookup]
· intro hnd
  rw [happly]
  simp [writeFile, List.lookup, getSubstitution_no_dollar old b a new hnd]

/-- C4: applying a patch whose `oldFragment` is absent from the target
file's current content fails with the distinguishable error
`Old code not found in file: <path>`, and the filesystem — in particular
the target file's content — is byte-for-byte unchanged. -/
theorem applyChanges_missing_fragment (fs : FS) (p : String) (old new content : Chars)
    (hfs : fs.lookup p = some content)
    (hmiss : indexOfSub old content = none) :
    applyChanges fs p old new = ⟨.error ("Old code not found in file: " ++ p), fs⟩ := by
unfold applyChanges readFile
rw [hfs]
simp [hmiss]

/-- C4 witness: a concrete file `f.txt` with content `abc` and a patch
looking for the absent fragment `zz`. -/
theorem applyChanges_missing_fragment_witness :
    [("f.txt", lc "abc")].lookup "f.txt" = some (lc "abc") ∧
    indexOfSub (lc "zz") (lc "abc") = none ∧
    applyChanges [("f.txt", lc "abc")] "f.txt" (lc "zz") (lc "q")
      = ⟨.error ("Old code not found in file: f.txt"), [("f.txt", lc "abc")]⟩ :=
⟨by decide, by decide,
  applyChanges_missing_fragment [("f.txt", lc "abc")] "f.txt" (lc "zz") (lc "q") (lc "abc")
    (by decide) (by decide)⟩

/-- C3 witness for the amended theorem: content `XabYab` with `ab` at
positions 1 and 4, replacement `Q` (no `$`), rewritten to `XQYab`. -/
theorem applyChanges_first_occurrence_witness :
    [("f.txt", lc "XabYab")].lookup "f.txt" = some (lc "X" ++ lc "ab" ++ lc "Yab") ∧
    ((applyChanges [("f.txt", lc "XabYab")] "f.txt" (lc "ab") (lc "Q")).fs.lookup "f.txt")
      = some (lc "X" ++ lc "Q" ++ lc "Yab") :=
⟨by decide,
  (applyChanges_first_occurrence [("f.txt", lc "XabYab")] "f.txt" (lc "ab") (lc "Q")
    (lc "X") (lc "Yab") (by decide) (by decide) (by decide)).2.2 (by decide)⟩

/-! ### C1 and C2: the verification safety gate and workspace teardown -/

/-- C1: for every patch and repository, if after applying the patch the
re-run of the tests yields `success: false`, then `executeWithPatch`
invokes no commit, no push and no pull-request-creation call (nor even a
branch creation: its git-operation trace is empty), and returns the
`verify_failed` status carrying the failing test output. -/
theorem safety_gate_invariant (fs : FS) (patch : Patch) (m : ManifestFile)
    (proc : ProcResult) (wde : Bool) (ts : String) (info : RepoInfo) (base : TestResult)
    (happly : (applyChanges fs patch.file patch.oldCode patch.newCode).result = .ok true)
    (hverify : ((runTests m proc).1).success = false) :
    (executeWithPatch fs patch m proc wde ts info base).gitOps = [] ∧
    (executeWithPatch fs patch m proc wde ts info base).result
      = .ok (.verifyFailed ((runTests m proc).1).output) := by
unfold executeWithPatch
rw [happly]
simp [hverify]

/-- C1 witness: a repository file `w/repo/a.txt` containing `hello`, a
patch replacing it by `bye`, and a post-patch test run exiting 1. -/
theorem safety_gate_invariant_witness :
    (applyChanges [("w/repo/a.txt", lc "hello")] "w/repo/a.txt" (lc "hello")
        (lc "bye")).result = .ok true ∧
    ((runTests (.parsed (.obj [("scripts", .obj [("test", .str (lc "node test.js"))])]))
        ⟨1, "1 failing", "err"⟩).1).success = false ∧
    (executeWithPatch [("w/repo/a.txt", lc "hello")]
        ⟨"w/repo/a.txt", lc "hello", lc "bye", "fix"⟩
        (.parsed (.obj [("scripts", .obj [("test", .str (lc "node test.js"))])]))
        ⟨1, "1 failing", "err"⟩ true "20260101-000000" ⟨"o", "r"⟩
        ⟨false, "base", some "npm test"⟩).gitOps = [] :=
⟨by decide, by rfl,
  (safety_gate_invariant [("w/repo/a.txt", lc "hello")]
    ⟨"w/repo/a.txt", lc "hello", lc "bye", "fix"⟩
    (.parsed (.obj [("scripts", .obj [("test", .str (lc "node test.js"))])]))
    ⟨1, "1 failing", "err"⟩ true "20260101-000000" ⟨"o", "r"⟩
    ⟨false, "base", some "npm test"⟩ (by decide) (by rfl)).1⟩

/-- C2 (code-bug evidence): a concrete run in which the patch applies, the
post-patch tests still fail, and `executeWithPatch` returns `verify_failed`
with the workspace directory *deleted* (`workDirRemoved = true`): the
`rm -rf workDir` cleanup on part_003 lines 100-108 runs on the
verification-failure path, contradicting the claim (and the repository's
README, which promises the workspace is kept for debugging when
verification fails). -/
theorem verify_failed_deletes_workspace :
    executeWithPatch [("w/repo/a.txt", lc "hello")]
        ⟨"w/repo/a.txt", lc "hello", lc "bye", "fix"⟩
        (.parsed (.obj [("scripts", .obj [("test", .str (lc "node test.js"))])]))
        ⟨1, "1 failing", "err"⟩ true "20260101-000000" ⟨"o", "r"⟩
        ⟨false, "base", some "npm test"⟩
      = ⟨.ok (.verifyFailed "1 failing\nerr"), [], true⟩ := by
rfl

/-! ### C5, C6 and C10: test discovery and execution -/

/-- C5: when a test command was discovered, `runTests` never throws on a
non-zero exit: the result has `success = true` iff the spawned process
exited with status zero, and on a non-zero exit the captured output
(`error.stdout + '\n' + error.stderr`) is folded into a `success: false`
result value rather than an exception. -/
theorem runTests_success_iff_exit_zero (m : ManifestFile) (proc : ProcResult) (cmd : String)
    (hcmd : detectTestCommand m = some cmd) :
    ((runTests m proc).1.success = true ↔ proc.exitCode = 0) ∧
    (proc.exitCode ≠ 0 →
      (runTests m proc).1 = ⟨false, proc.stdout ++ "\n" ++ proc.stderr, some cmd⟩) := by
unfold runTests
rw [hcmd]
by_cases h : proc.exitCode = 0 <;> simp [h]

/-- C5 witness: a manifest declaring a test script, one process exiting 0
and one exiting 2. -/
theorem runTests_success_iff_exit_zero_witness :
    ((runTests (.parsed (.obj [("scripts", .obj [("test", .str (lc "t"))])]))
        ⟨0, "ok", ""⟩).1.success = true) ∧
    ((runTests (.parsed (.obj [("scripts", .obj [("test", .str (lc "t"))])]))
        ⟨2, "out", "boom"⟩).1
      = ⟨false, "out" ++ "\n" ++ "boom", some "npm test"⟩) :=
⟨(runTests_success_iff_exit_zero
    (.parsed (.obj [("scripts", .obj [("test", .str (lc "t"))])]))
    ⟨0, "ok", ""⟩ "npm test" (by rfl)).1.mpr (by rfl),
  (runTests_success_iff_exit_zero
    (.parsed (.obj [("scripts", .obj [("test", .str (lc "t"))])]))
    ⟨2, "out", "boom"⟩ "npm test" (by rfl)).2 (by decide)⟩

/-- C6: when the manifest is absent, unreadable, or declares no test
script (no `test` property reachable under `scripts`), `runTests` returns
exactly `{success: false, output: "No test command found", command: null}`
and spawns no process (its spawn trace is empty). -/
theorem runTests_no_test_command (m : ManifestFile) (proc : ProcResult)
    (h : m = .absent ∨ m = .unreadable ∨
      ∃ j, m = .parsed j ∧ getField (getField j "scripts") "test" = .undefined) :
    runTests m proc = (⟨false, "No test command found", none⟩, []) := by
rcases h with h | h | ⟨j, hm, hj⟩
· subst h; rfl
· subst h; rfl
· subst hm
  simp [runTests, detectTestCommand, hj, truthy]

/-- C6 witness: the three conditions at concrete manifests (absent;
unreadable; parsed with a `scripts` object lacking `test`). -/
theorem runTests_no_test_command_witness :
    runTests .absent ⟨0, "", ""⟩ = (⟨false, "No test command found", none⟩, []) ∧
    runTests .unreadable ⟨0, "", ""⟩ = (⟨false, "No test command found", none⟩, []) ∧
    runTests (.parsed (.obj [("scripts", .obj [("build", .str (lc "b"))])])) ⟨0, "", ""⟩
      = (⟨false, "No test command found", none⟩, []) :=
⟨runTests_no_test_command .absent ⟨0, "", ""⟩ (Or.inl rfl),
  runTests_no_test_command .unreadable ⟨0, "", ""⟩ (Or.inr (Or.inl rfl)),
  runTests_no_test_command (.parsed (.obj [("scripts", .obj [("build", .str (lc "b"))])]))
    ⟨0, "", ""⟩ (Or.inr (Or.inr ⟨_, rfl, rfl⟩))⟩

/-- C10: for every manifest state and process outcome, the `command` field
of the produced `TestResult` is either `null` or exactly `'npm test'`; and
whenever the manifest declares a (truthy) test script — whatever its text —
the command is `'npm test'`: the script's text never changes the
invocation string. -/
theorem runTests_command_invariant :
    (∀ (m : ManifestFile) (proc : ProcResult),
      (runTests m proc).1.command = none ∨ (runTests m proc).1.command = some "npm test") ∧
    (∀ (j : JValue) (proc : ProcResult),
      truthy (getField (getField j "scripts") "test") = true →
      (runTests (.parsed j) proc).1.command = some "npm test") := by
constructor
· intro m proc
  cases m with
  | absent => exact Or.inl rfl
  | unreadable => exact Or.inl rfl
  | parsed j =>
      by_cases h : (truthy (getField j "scripts")
          && truthy (getField (getField j "scripts") "test")) = true
      · right
        by_cases h2 : proc.exitCode = 0 <;> simp [runTests, detectTestCommand, h, h2]
      · left
        simp [runTests, detectTestCommand, h]
· intro j proc h
  have hscripts : truthy (getField j "scripts") = true := by
    cases hs : getField j "scripts" with
    | obj fields => rfl
    | undefined => rw [hs] at h; simp [getField, truthy] at h
    | null => rw [hs] at h; simp [getField, truthy] at h
    | bool b => rw [hs] at h; simp [getField, truthy] at h
    | num n => rw [hs] at h; simp [getField, truthy] at h
    | str s => rw [hs] at h; simp [getField, truthy] at h
    | arr xs => rw [hs] at h; simp [getField, truthy] at h
  by_cases h2 : proc.exitCode = 0 <;>
    simp [runTests, detectTestCommand, hscripts, h, h2]

/-- C10 witness: a manifest whose test script text is `mocha` (not
`npm test`) still yields the invocation string `npm test`. -/
theorem runTests_command_invariant_witness :
    (runTests (.parsed (.obj [("scripts", .obj [("test", .str (lc "mocha"))])]))
        ⟨0, "", ""⟩).1.command = some "npm test" :=
runTests_command_invariant.2 (.obj [("scripts", .obj [("test", .str (lc "mocha"))])])
  ⟨0, "", ""⟩ (by rfl)

/-! ### C9: the deterministic fallback patch path -/

/-- C9 counterexample: with a repository that has no `utils/date.js` and a
goal containing the marker, `getFallbackPatch` returns neither a Patch nor
`null` — it throws the `readFile` error, refuting "this path never fails
with an error". -/
theorem getFallbackPatch_throws_counterexample :
    (indexOfSub (lc "utils/date.js") (lc "Fix the failing test in utils/date.js")).isSome
      = true ∧
    getFallbackPatch [] "repo" "Fix the failing test in utils/date.js"
      = .error ("Failed to read file repo/utils/date.js") := by
constructor
· decide
· rfl

/-- C9 (amended): for any goal not containing the `utils/date.js` marker,
`getFallbackPatch` returns `null` and never throws; when the goal contains
the marker it returns the complete hard-coded Patch provided
`<repoPath>/utils/date.js` is readable, and throws the `readFile` error
when it is not. -/
theorem getFallbackPatch_amended :
    (∀ (fs : FS) (repoPath goal : String),
      (indexOfSub (lc "utils/date.js") (lc goal)).isSome = false →
      getFallbackPatch fs repoPath goal = .ok none) ∧
    (∀ (fs : FS) (repoPath goal : String) (content : Chars),
      (indexOfSub (lc "utils/date.js") (lc goal)).isSome = true →
      fs.lookup (repoPath ++ "/utils/date.js") = some content →
      getFallbackPatch fs repoPath goal
        = .ok (some ⟨repoPath ++ "/utils/date.js", lc fallbackOldCode, lc fallbackNewCode,
            "Fixed addDays to add days correctly and formatDate to use UTC getters"⟩)) ∧
    (∀ (fs : FS) (repoPath goal : String),
      (indexOfSub (lc "utils/date.js") (lc goal)).isSome = true →
      fs.lookup (repoPath ++ "/utils/date.js") = none →
      getFallbackPatch fs repoPath goal
        = .error ("Failed to read file " ++ (repoPath ++ "/utils/date.js"))) := by
refine ⟨?_, ?_, ?_⟩
· intro fs repoPath goal h
  simp [getFallbackPatch, h]
· intro fs repoPath goal content h hl
  simp [getFallbackPatch, h, readFile, hl]
· intro fs repoPath goal h hl
  simp [getFallbackPatch, h, readFile, hl]

/-- C9 witness for the amended theorem: a goal without the marker yields
`null`; a repository containing `utils/date.js` with a marker goal yields
the complete patch; the empty repository with a marker goal throws. -/
theorem getFallbackPatch_amended_witness :
    getFallbackPatch [] "repo" "tidy the docs" = .ok none ∧
    getFallbackPatch [("repo/utils/date.js", lc "x")] "repo" "fix utils/date.js"
      = .ok (some ⟨"repo" ++ "/utils/date.js", lc fallbackOldCode, lc fallbackNewCode,
          "Fixed addDays to add days correctly and formatDate to use UTC getters"⟩) ∧
    getFallbackPatch [] "repo" "fix utils/date.js"
      = .error ("Failed to read file " ++ ("repo" ++ "/utils/date.js")) :=
⟨getFallbackPatch_amended.1 [] "repo" "tidy the docs" (by decide),
  getFallbackPatch_amended.2.1 [("repo/utils/date.js", lc "x")] "repo" "fix utils/date.js"
    (lc "x") (by decide) (by decide),
  getFallbackPatch_amended.2.2 [] "repo" "fix utils/date.js" (by decide) (by decide)⟩

/-! ### C7: validation of the externally generated patch -/

/-- A JSON field value that is a non-empty string (the only shape the
validation accepts for the four required fields). -/
def isNonemptyString : JValue → Bool
  | .str (_ :: _) => true
  | _ => false

lemma validateLLMPatch_some_facts (p : JValue) (fs : FS) (repoPath : String) (q : Patch)
    (h : validateLLMPatch (some p) fs repoPath = some q) :
    ∃ summary file oldC newC content,
      getField p "summary" = .str summary ∧ summary ≠ [] ∧
      getField p "file" = .str file ∧ file ≠ [] ∧
      getField p "oldCode" = .str oldC ∧ oldC ≠ [] ∧
      getField p "newCode" = .str newC ∧ newC ≠ [] ∧
      isAbsolutePath file = false ∧
      fs.lookup (joinPath repoPath (String.mk file)) = some content ∧
      indexOfSub oldC content ≠ none := by
unfold validateLLMPatch at h
split at h
· exact absurd h (by simp)
· rename_i p' heq
  injection heq with heq
  subst heq
  split at h
  · rename_i summary file oldC newC hs hf ho hn
    split_ifs at h with h1 h2 h3 h4 h5 h6 <;> try exact absurd h (by simp)
    unfold readFile at h
    split at h
    · exact absurd h (by simp)
    · rename_i content heq2
      have hl : fs.lookup (joinPath repoPath (String.mk file)) = some content := by
        cases hlk : fs.lookup (joinPath repoPath (String.mk file)) with
        | none => rw [hlk] at heq2; exact absurd heq2 (by simp)
        | some c => rw [hlk] at heq2; simp at heq2; rw [heq2]
      split_ifs at h with h7
      exact ⟨summary, file, oldC, newC, content, hs, h1, hf, h2, ho, h3, hn, h4,
        by simpa using h5, hl, h7⟩
  · exact absurd h (by simp)

/-- C7: each of the listed conditions independently makes the external
patch path resolve to `null` (and the validator, being a total function,
throws nothing): the response held no parseable JSON patch object; a
required field (`summary`, `file`, `oldCode`, `newCode`) is missing,
non-string or empty; `file` is an absolute path; the resolved file does
not exist under the repository directory; the file's current content does
not contain `oldCode` verbatim. -/
theorem llm_patch_validation_rejects :
    (∀ (fs : FS) (repoPath : String), validateLLMPatch none fs repoPath = none) ∧
    (∀ (p : JValue) (fs : FS) (repoPath : String),
      (isNonemptyString (getField p "summary") = false ∨
        isNonemptyString (getField p "file") = false ∨
        isNonemptyString (getField p "oldCode") = false ∨
        isNonemptyString (getField p "newCode") = false) →
      validateLLMPatch (some p) fs repoPath = none) ∧
    (∀ (p : JValue) (fs : FS) (repoPath : String) (f : Chars),
      getField p "file" = .str f → isAbsolutePath f = true →
      validateLLMPatch (some p) fs repoPath = none) ∧
    (∀ (p : JValue) (fs : FS) (repoPath : String) (f : Chars),
      getField p "file" = .str f →
      fs.lookup (joinPath repoPath (String.mk f)) = none →
      validateLLMPatch (some p) fs repoPath = none) ∧
    (∀ (p : JValue) (fs : FS) (repoPath : String) (f oldC content : Chars),
      getField p "file" = .str f → getField p "oldCode" = .str oldC →
      fs.lookup (joinPath repoPath (String.mk f)) = some content →
      indexOfSub oldC content = none →
      validateLLMPatch (some p) fs repoPath = none) := by
refine ⟨fun fs repoPath => rfl, ?_, ?_, ?_, ?_⟩
· intro p fs repoPath hbad
  cases hv : validateLLMPatch (some p) fs repoPath with
  | none => rfl
  | some q =>
    exfalso
    obtain ⟨s, f, oc, nc, ct, hs, hs2, hf, hf2, ho, ho2, hn, hn2, _, _, _⟩ :=
      validateLLMPatch_some_facts p fs repoPath q hv
    rcases hbad with hb | hb | hb | hb
    · rw [hs] at hb
      cases s with
      | nil => exact hs2 rfl
      | cons a t => exact absurd hb (by simp [isNonemptyString])
    · rw [hf] at hb
      cases f with
      | nil => exact hf2 rfl
      | cons a t => exact absurd hb (by simp [isNonemptyString])
    · rw [ho] at hb
      cases oc with
      | nil => exact ho2 rfl
      | cons a t => exact absurd hb (by simp [isNonemptyString])
    · rw [hn] at hb
      cases nc with
      | nil => exact hn2 rfl
      | cons a t => exact absurd hb (by simp [isNonemptyString])
· intro p fs repoPath f0 hf0 habs0
  cases hv : validateLLMPatch (some p) fs repoPath with
  | none => rfl
  | some q =>
    exfalso
    obtain ⟨s, f, oc, nc, ct, _, _, hf, _, _, _, _, _, habs, _, _⟩ :=
      validateLLMPatch_some_facts p fs repoPath q hv
    rw [hf0] at hf
    rw [JValue.str.inj hf] at habs0
    rw [habs] at habs0
    exact Bool.false_ne_true habs0
· intro p fs repoPath f0 hf0 hl0
  cases hv : validateLLMPatch (some p) fs repoPath with
  | none => rfl
  | some q =>
    exfalso
    obtain ⟨s, f, oc, nc, ct, _, _, hf, _, _, _, _, _, _, hl, _⟩ :=
      validateLLMPatch_some_facts p fs repoPath q hv
    rw [hf0] at hf
    rw [JValue.str.inj hf] at hl0
    rw [hl0] at hl
    exact Option.noConfusion hl
· intro p fs repoPath f0 oc0 content0 hf0 ho0 hl0 hio0
  cases hv : validateLLMPatch (some p) fs repoPath with
  | none => rfl
  | some q =>
    exfalso
    obtain ⟨s, f, oc, nc, ct, _, _, hf, _, ho, _, _, _, _, hl, hio⟩ :=
      validateLLMPatch_some_facts p fs repoPath q hv
    rw [hf0] at hf
    rw [ho0] at ho
    rw [JValue.str.inj hf] at hl0
    rw [hl0] at hl
    rw [JValue.str.inj ho] at hio0
    rw [Option.some.inj hl] at hio0
    exact hio hio0

/-- C7 witness: each rejection condition at a concrete input — no parsed
JSON; a patch object missing `oldCode`; an absolute `file`; a `file` not
present in the repository; an `oldCode` absent from the target file. -/
theorem llm_patch_validation_rejects_witness :
    validateLLMPatch none [] "r" = none ∧
    validateLLMPatch (some (.obj [("summary", .str (lc "s")), ("file", .str (lc "a.js")),
      ("newCode", .str (lc "y"))])) [("r/a.js", lc "x0")] "r" = none ∧
    validateLLMPatch (some (.obj [("summary", .str (lc "s")), ("file", .str (lc "/a.js")),
      ("oldCode", .str (lc "x")), ("newCode", .str (lc "y"))])) [("r/a.js", lc "x0")] "r"
      = none ∧
    validateLLMPatch (some (.obj [("summary", .str (lc "s")), ("file", .str (lc "b.js")),
      ("oldCode", .str (lc "x")), ("newCode", .str (lc "y"))])) [("r/a.js", lc "x0")] "r"
      = none ∧
    validateLLMPatch (some (.obj [("summary", .str (lc "s")), ("file", .str (lc "a.js")),
      ("oldCode", .str (lc "zz")), ("newCode", .str (lc "y"))])) [("r/a.js", lc "x0")] "r"
      = none :=
⟨llm_patch_validation_rejects.1 [] "r",
  llm_patch_validation_rejects.2.1 _ [("r/a.js", lc "x0")] "r"
    (Or.inr (Or.inr (Or.inl rfl))),
  llm_patch_validation_rejects.2.2.1 _ [("r/a.js", lc "x0")] "r" (lc "/a.js") rfl rfl,
  llm_patch_validation_rejects.2.2.2.1 _ [("r/a.js", lc "x0")] "r" (lc "b.js") rfl rfl,
  llm_patch_validation_rejects.2.2.2.2 _ [("r/a.js", lc "x0")] "r" (lc "a.js") (lc "zz")
    (lc "x0") rfl rfl rfl (by decide)⟩

/-! ### C8: graceful pull-request degradation -/

/-- C8: with the hosting-API credential absent (and likewise on any API
failure), `openPullRequest` does not throw: it returns a non-null payload
with `createdViaApi: false`; and a run whose post-patch verification
passed still reaches the `success` terminal status in the orchestrator,
whose pull-request step is best-effort. -/
theorem openPullRequest_graceful (api : ApiOutcome) (payload : PrData)
    (fs : FS) (patch : Patch) (m : ManifestFile) (proc : ProcResult) (wde : Bool)
    (ts : String) (info : RepoInfo) (base : TestResult)
    (happly : (applyChanges fs patch.file patch.oldCode patch.newCode).result = .ok true)
    (hverify : ((runTests m proc).1).success = true) :
    openPullRequest none api payload = ⟨payload, none, none, false⟩ ∧
    (openPullRequest none api payload).createdViaApi = false ∧
    (executeWithPatch fs patch m proc wde ts info base).result
      = .ok (.success
          (createPullRequestActual info ("fix/" ++ ts) ("Fix: " ++ patch.summary)
            (createPRBody patch base (runTests m proc).1))
          ("fix/" ++ ts) info) := by
refine ⟨rfl, rfl, ?_⟩
unfold executeWithPatch
rw [happly]
simp [hverify]

/-- C8 witness: no credential with a failed API outcome, and a concrete
run whose post-patch tests pass, ending in `success`. -/
theorem openPullRequest_graceful_witness :
    openPullRequest none (.failed "missing token") ⟨"o", "r", "fix/x", "main", "t", "b"⟩
      = ⟨⟨"o", "r", "fix/x", "main", "t", "b"⟩, none, none, false⟩ ∧
    (executeWithPatch [("w/repo/a.txt", lc "hello")]
        ⟨"w/repo/a.txt", lc "hello", lc "bye", "fix"⟩
        (.parsed (.obj [("scripts", .obj [("test", .str (lc "node test.js"))])]))
        ⟨0, "2 passing", ""⟩ true "20260101-000000" ⟨"o", "r"⟩
        ⟨false, "base", some "npm test"⟩).result
      = .ok (.success
          (createPullRequestActual ⟨"o", "r"⟩ ("fix/" ++ "20260101-000000")
            ("Fix: " ++ "fix")
            (createPRBody ⟨"w/repo/a.txt", lc "hello", lc "bye", "fix"⟩
              ⟨false, "base", some "npm test"⟩
              (runTests
                (.parsed (.obj [("scripts", .obj [("test", .str (lc "node test.js"))])]))
                ⟨0, "2 passing", ""⟩).1))
          ("fix/" ++ "20260101-000000") ⟨"o", "r"⟩) :=
⟨(openPullRequest_graceful (.failed "missing token") ⟨"o", "r", "fix/x", "main", "t", "b"⟩
    [("w/repo/a.txt", lc "hello")] ⟨"w/repo/a.txt", lc "hello", lc "bye", "fix"⟩
    (.parsed (.obj [("scripts", .obj [("test", .str (lc "node test.js"))])]))
    ⟨0, "2 passing", ""⟩ true "20260101-000000" ⟨"o", "r"⟩
    ⟨false, "base", some "npm test"⟩ (by decide) (by rfl)).1,
  (openPullRequest_graceful (.failed "missing token") ⟨"o", "r", "fix/x", "main", "t", "b"⟩
    [("w/repo/a.txt", lc "hello")] ⟨"w/repo/a.txt", lc "hello", lc "bye", "fix"⟩
    (.parsed (.obj [("scripts", .obj [("test", .str (lc "node test.js"))])]))
    ⟨0, "2 passing", ""⟩ true "20260101-000000" ⟨"o", "r"⟩
    ⟨false, "base", some "npm test"⟩ (by decide) (by rfl)).2.2⟩

end PrAgent
